import Mathlib

/-!
Verification development for the `stconflict` syncthing conflict resolver
(`src/stconflict/__init__.py`).  The Python source is shallowly embedded:
strings are `List Char`, the filesystem and `os.path.realpath` are an explicit
environment, fallible Python code (exceptions) returns `Except PyErr`, and the
hidden global clock `Timestamp.NOW` is explicit state passing.
-/

/-- Python exceptions that the embedded code can raise. -/
inductive PyErr where
  | keyError        : PyErr  -- dict lookup miss
  | assertionError  : PyErr  -- failed `assert`
  | valueError      : PyErr  -- e.g. datetime.datetime with an invalid date
  | typeError       : PyErr  -- e.g. hashlib update called with str
  | fileNotFound    : PyErr  -- open() on a missing path
  | osError         : PyErr  -- os.remove/os.rename failures
deriving DecidableEq

/-- `[0-9]`, the regex character class used by the DATE and TIME groups. -/
def isDigitChar (c : Char) : Bool := '0' ≤ c && c ≤ '9'

/-- `[0-9A-Z]`, the regex character class of `ConflictFile.UID`. -/
def isUidChar (c : Char) : Bool := isDigitChar c || ('A' ≤ c && c ≤ 'Z')

/-- The decimal digit character for a value below ten (used to embed Python's
zero-padded `'{:>04}'`/`'{:>02}'` integer formatting). -/
def digitChar : Nat → Char
  | 0 => '0' | 1 => '1' | 2 => '2' | 3 => '3' | 4 => '4'
  | 5 => '5' | 6 => '6' | 7 => '7' | 8 => '8' | 9 => '9'
  | _ => '?'

/-- Value of a string of decimal digits, as Python's `int(...)` computes it on
the fixed-width regex groups. -/
def digitsToNat (l : List Char) : Nat :=
  l.foldl (fun a c => a * 10 + (c.toNat - 48)) 0

/-- Python `'{:>02}'.format(n)` for the two-digit fields.  Every such field in
the program is parsed from a two-digit group, hence below 100, where this
agrees with Python's formatting. -/
def pad2 (n : Nat) : List Char := [digitChar (n / 10 % 10), digitChar (n % 10)]

/-- Python `'{:>04}'.format(n)` for the year field.  The year is parsed from a
four-digit group, hence below 10000, where this agrees with Python. -/
def pad4 (n : Nat) : List Char :=
  [digitChar (n / 1000 % 10), digitChar (n / 100 % 10),
   digitChar (n / 10 % 10), digitChar (n % 10)]

/-- One parsed `.sync-conflict-` marker: the fields of the Python `Conflict`
object (a `Date`, a `Time` and the replica uid), stored as the integers that
`Date.__init__`/`Time.__init__` produce with `int(...)`. -/
structure Conflict where
  dy : Nat  -- year
  dm : Nat  -- month
  dd : Nat  -- day
  th : Nat  -- hour
  tm : Nat  -- minute
  ts : Nat  -- second
  uid : List Char
deriving DecidableEq

/-- The literal part of the marker pattern. -/
def litConflict : List Char := String.toList ".sync-conflict-"

/-- `Conflict.__repr__`: `.sync-conflict-{date}-{time}-{uid}` with the date as
`'{:>04}{:>02}{:>02}'` and the time as `'{:>02}{:>02}{:>02}'`. -/
def Conflict.text (c : Conflict) : List Char :=
  litConflict ++ pad4 c.dy ++ pad2 c.dm ++ pad2 c.dd ++ ['-'] ++
    pad2 c.th ++ pad2 c.tm ++ pad2 c.ts ++ ['-'] ++ c.uid

/-- `Conflict.format`: fold a list of conflicts into the concatenation of
their textual forms (`s = '{}{}'.format(s, c)` starting from `''`). -/
def Conflict.format (conflicts : List Conflict) : List Char :=
  conflicts.foldl (fun s c => s ++ c.text) []

/-- Field bounds guaranteed for every marker produced by the parser: each
numeric field comes from a fixed-width digit group and the uid from
`[0-9A-Z]{7}`. -/
def Conflict.Shaped (c : Conflict) : Prop :=
  c.dy < 10000 ∧ c.dm < 100 ∧ c.dd < 100 ∧ c.th < 100 ∧ c.tm < 100 ∧
    c.ts < 100 ∧ c.uid.length = 7 ∧ c.uid.all isUidChar = true

instance (c : Conflict) : Decidable c.Shaped := by
  unfold Conflict.Shaped; infer_instance

/-- Gregorian leap year, as `datetime` implements it. -/
def isLeap (y : Nat) : Bool := y % 4 = 0 && (y % 100 ≠ 0 || y % 400 = 0)

/-- Days in a month of the proleptic Gregorian calendar. -/
def daysInMonth (y m : Nat) : Nat :=
  if m = 2 then (if isLeap y then 29 else 28)
  else if m = 4 ∨ m = 6 ∨ m = 9 ∨ m = 11 then 30
  else 31

/-- The validation `datetime.datetime(...)` performs when `Timestamp.__init__`
is run from `Conflict.__init__`; a violation raises `ValueError`. -/
def Conflict.validDatetime (c : Conflict) : Bool :=
  1 ≤ c.dy && c.dy ≤ 9999 && 1 ≤ c.dm && c.dm ≤ 12 &&
    1 ≤ c.dd && c.dd ≤ daysInMonth c.dy c.dm &&
    c.th ≤ 23 && c.tm ≤ 59 && c.ts ≤ 59

/-! ## The marker regex

`Conflict.REGEX` is `\.sync-conflict-(DATE)-(TIME)-(UID)` with fixed-width
groups, so a match always spans exactly 38 characters and the regex engine's
`finditer`/`sub` behaviour is: try to match at each position left to right,
and on success continue after the match. -/

/-- Match a literal at the head of the input, returning the rest. -/
def expectLit (lit s : List Char) : Option (List Char) :=
  if s.take lit.length = lit then some (s.drop lit.length) else none

/-- Match exactly `n` decimal digits at the head of the input, returning their
`int(...)` value and the rest. -/
def takeDigits (n : Nat) (s : List Char) : Option (Nat × List Char) :=
  if (s.take n).length = n ∧ (s.take n).all isDigitChar = true then
    some (digitsToNat (s.take n), s.drop n)
  else none

/-- Match the seven-character `[0-9A-Z]{7}` uid group. -/
def takeUid (s : List Char) : Option (List Char × List Char) :=
  if (s.take 7).length = 7 ∧ (s.take 7).all isUidChar = true then
    some (s.take 7, s.drop 7)
  else none

/-- Try to match `Conflict.REGEX` at the head of the input; on success return
the parsed marker and the input after the 38 matched characters. -/
def matchMarker (s : List Char) : Option (Conflict × List Char) :=
  (expectLit litConflict s).bind fun s1 =>
  (takeDigits 4 s1).bind fun p1 =>
  (takeDigits 2 p1.2).bind fun p2 =>
  (takeDigits 2 p2.2).bind fun p3 =>
  (expectLit ['-'] p3.2).bind fun s4 =>
  (takeDigits 2 s4).bind fun p5 =>
  (takeDigits 2 p5.2).bind fun p6 =>
  (takeDigits 2 p6.2).bind fun p7 =>
  (expectLit ['-'] p7.2).bind fun s8 =>
  (takeUid s8).map fun p9 =>
    (⟨p1.1, p2.1, p3.1, p5.1, p6.1, p7.1, p9.1⟩, p9.2)

/-- Left-to-right scan of a name for all non-overlapping marker matches, with
fuel for structural recursion.  Returns the matches in order (`finditer`) and
the name with the matches removed (`REGEX.sub('', name)`); both are produced
by the same scan, exactly as the regex engine would. -/
def scanAux : Nat → List Char → List Conflict × List Char
  | _, [] => ([], [])
  | 0, s => ([], s)
  | fuel + 1, c :: rest =>
    match matchMarker (c :: rest) with
    | some (m, r) =>
      let res := scanAux fuel r
      (m :: res.1, res.2)
    | none =>
      let res := scanAux fuel rest
      (res.1, c :: res.2)

/-- Scan a whole name (the fuel `s.length` is always sufficient because every
step of `scanAux` consumes at least one character). -/
def scanConflicts (s : List Char) : List Conflict × List Char :=
  scanAux s.length s

/-- `Conflict.parse`: collect all marker matches of the name, building the
`Conflict` objects; constructing a `Conflict` builds its `Timestamp`, whose
`datetime.datetime` raises `ValueError` on an invalid calendar date or time. -/
def Conflict.parse (name : List Char) : Except PyErr (List Conflict) :=
  let cs := (scanConflicts name).1
  if cs.all Conflict.validDatetime then .ok cs else .error .valueError

/-! ## `os.path.splitext` on a bare filename -/

/-- Index of the last `'.'` in a name, if any. -/
def lastDotIdx : List Char → Option Nat
  | [] => none
  | c :: rest =>
    match lastDotIdx rest with
    | some i => some (i + 1)
    | none => if c = '.' then some 0 else none

/-- `os.path.splitext` restricted to names without a path separator: split at
the last dot, unless every character before it is itself a dot (leading dots
do not start an extension). -/
def splitext (s : List Char) : List Char × List Char :=
  match lastDotIdx s with
  | none => (s, [])
  | some i =>
    if (s.take i).all (· = '.') then (s, []) else (s.take i, s.drop i)

/-! ## Timestamps and the clock

`Timestamp` wraps a `Date` and `Time` and a `datetime` value; only
differences of timestamps (seconds) are observed.  `Timestamp.NOW` is a
memoized module-level global, embedded as explicit `Option Timestamp` state. -/

/-- The fields of a `Timestamp` (its `Date`, `Time` pair). -/
structure Timestamp where
  yy : Nat
  mm : Nat
  dd : Nat
  hh : Nat
  mi : Nat
  ss : Nat
deriving DecidableEq

/-- Day number of a proleptic-Gregorian civil date (Hinnant's `days_from_civil`
without the epoch shift); `datetime` subtraction observes exactly the
difference of such day numbers. -/
def daysFromCivil (y m d : Nat) : Nat :=
  let y' := if m ≤ 2 then y - 1 else y
  let era := y' / 400
  let yoe := y' % 400
  let mp := if 2 < m then m - 3 else m + 9
  let doy := (153 * mp + 2) / 5 + (d - 1)
  let doe := yoe * 365 + yoe / 4 - yoe / 100 + doy
  era * 146097 + doe

/-- A timestamp as a count of seconds (day number times 86400 plus the
time of day), the quantity `datetime` subtraction measures. -/
def Timestamp.toSecs (t : Timestamp) : Nat :=
  daysFromCivil t.yy t.mm t.dd * 86400 + t.hh * 3600 + t.mi * 60 + t.ss

/-- `Timestamp.delta`: `(self.dt - other.dt).total_seconds()`.  Both datetimes
have whole-second precision, so the value is an integer. -/
def Timestamp.delta (a b : Timestamp) : Int :=
  (a.toSecs : Int) - (b.toSecs : Int)

/-- The timestamp a `Conflict` carries (`Conflict.__init__` builds it from its
date and time). -/
def Conflict.timestamp (c : Conflict) : Timestamp :=
  ⟨c.dy, c.dm, c.dd, c.th, c.tm, c.ts⟩

/-- `Timestamp.now()`: the memoized global clock.  The state is
`Timestamp.NOW` (initially `None`); `clock` is the wall-clock reading
`datetime.datetime.now()` would give at this call.  A `Timestamp` object is
always truthy, so once set the memo is always returned. -/
def Timestamp.now (st : Option Timestamp) (clock : Timestamp) :
    Timestamp × Option Timestamp :=
  match st with
  | some t => (t, some t)
  | none => (clock, some clock)

/-! ## ConflictFile -/

/-- The `ConflictFile` record.  `parent` and `children` are embedded as keys
into the canonical-path index (the Python code stores object references; the
index keys identify those objects uniquely). -/
structure ConflictFile where
  path : List Char
  base : List Char
  name : List Char
  conflicts : List Conflict
  selected : List Char
  ext : List Char
  original : List Char
  root : Bool
  parent : Option (List Char)
  children : List (List Char)
deriving DecidableEq

/-- `ConflictFile.format` with explicit arguments:
`'{}{}{}'.format(name, Conflict.format(conflicts), ext)`. -/
def ConflictFile.formatWith (name : List Char) (conflicts : List Conflict)
    (ext : List Char) : List Char :=
  name ++ Conflict.format conflicts ++ ext

/-- `ConflictFile.format()` with all defaults, i.e. `str(self)`:
`selected ++ format(conflicts) ++ ext`. -/
def ConflictFile.reprName (cf : ConflictFile) : List Char :=
  ConflictFile.formatWith cf.selected cf.conflicts cf.ext

/-- `ConflictFile.__init__(path, base, name, conflicts)`: strip all marker
matches from the name, `splitext` the result into `selected`/`ext`, derive
`original` from all conflicts but the last, set `root`, and run the defensive
`assert self.name == str(self)` (failure raises `AssertionError`). -/
def ConflictFile.init (path base name : List Char) (conflicts : List Conflict) :
    Except PyErr ConflictFile :=
  let stripped := (scanConflicts name).2
  let sel := (splitext stripped).1
  let ext := (splitext stripped).2
  let original := sel ++ Conflict.format conflicts.dropLast
  if name = ConflictFile.formatWith sel conflicts ext then
    .ok { path := path, base := base, name := name, conflicts := conflicts,
          selected := sel, ext := ext, original := original,
          root := decide (original = sel), parent := none, children := [] }
  else .error .assertionError

/-- Building one record the way `Cli.scan_for_conflicts` does: parse the name
(`ValueError` propagates), skip the file when there is no marker
(`if conflicts:`), otherwise run `ConflictFile.__init__`. -/
def scanBuild (path base name : List Char) :
    Except PyErr (Option ConflictFile) :=
  match Conflict.parse name with
  | .error e => .error e
  | .ok cs =>
    if cs.isEmpty then .ok none
    else
      match ConflictFile.init path base name cs with
      | .error e => .error e
      | .ok cf => .ok (some cf)

/-- `ConflictFile.top()`: `self.conflicts[-1]`.  Every record the scanner
builds has a non-empty `conflicts` list, so the default is unreachable. -/
def ConflictFile.top (cf : ConflictFile) : Conflict :=
  cf.conflicts.getLastD ⟨0, 0, 0, 0, 0, 0, []⟩

/-- `ConflictFile.age_in_seconds` with the clock value explicit:
`Timestamp.delta(now, self.top().timestamp)`. -/
def ConflictFile.age_in_seconds (now : Timestamp) (cf : ConflictFile) : Int :=
  Timestamp.delta now cf.top.timestamp

/-- `Timestamp.file_age(conflict_file)` with the memoized global clock made
explicit: reads (and possibly sets) `Timestamp.NOW`, then measures the age
against it. -/
def Timestamp.file_age (st : Option Timestamp) (clock : Timestamp)
    (cf : ConflictFile) : Int × Option Timestamp :=
  let r := Timestamp.now st clock
  (ConflictFile.age_in_seconds r.1 cf, r.2)

/-! ## The filesystem environment

`os.path.realpath`, `os.path.isfile` and `open` are embedded as an explicit
environment.  A file's content is its list of text-mode lines (what
`for line in fd` yields); `none` means the path is not a regular file. -/

/-- Read-only filesystem view used by path resolution and the heuristics. -/
structure Env where
  realpath : List Char → List Char
  file : List Char → Option (List (List Char))

/-- `os.path.join(a, b)` for an absolute directory `a` (no trailing slash)
and a bare filename `b`, the only shapes the program joins. -/
def pathJoin (a b : List Char) : List Char := a ++ '/' :: b

/-- `ConflictFile.canonical_name()`: `join(realpath(base), name)`. -/
def ConflictFile.canonical_name (env : Env) (cf : ConflictFile) : List Char :=
  pathJoin (env.realpath cf.base) cf.name

/-- `ConflictFile.canonical_selected()`:
`join(realpath(base), format(name=selected, conflicts=[]))`. -/
def ConflictFile.canonical_selected (env : Env) (cf : ConflictFile) : List Char :=
  pathJoin (env.realpath cf.base) (ConflictFile.formatWith cf.selected [] cf.ext)

/-- `ConflictFile.canonical_original()`:
`join(realpath(base), format(name=original, conflicts=[]))`. -/
def ConflictFile.canonical_original (env : Env) (cf : ConflictFile) : List Char :=
  pathJoin (env.realpath cf.base) (ConflictFile.formatWith cf.original [] cf.ext)

/-- `os.path.isfile` over the environment. -/
def Env.isfile (env : Env) (p : List Char) : Bool := (env.file p).isSome

/-! ## Heuristics -/

/-- Classification codes, as the integer constants of class `Heuristic`. -/
def Heuristic.NONE : Nat := 0
def Heuristic.OLD : Nat := 1
def Heuristic.SAME : Nat := 2
def Heuristic.NESTED : Nat := 3
def Heuristic.ORPHANED : Nat := 4
def Heuristic.OBSOLETE : Nat := 5
def Heuristic.YOUNG : Nat := 6

/-- `Heuristic.is_old`: age above 30 days (in seconds). -/
def Heuristic.is_old (now : Timestamp) (cf : ConflictFile) : Bool :=
  ConflictFile.age_in_seconds now cf > 30 * 60 * 60 * 24

/-- `Heuristic.is_young`: age below 5 days (in seconds). -/
def Heuristic.is_young (now : Timestamp) (cf : ConflictFile) : Bool :=
  ConflictFile.age_in_seconds now cf < 5 * 60 * 60 * 24

/-- `Heuristic.is_same`: opens both the selected and the original file in text
mode (`open(path, 'r')` raises `FileNotFoundError` on a missing path, there is
no existence check), then feeds each line — a `str` — to
`hashlib.sha256().update`, which raises `TypeError` in Python 3 on the first
line; only when both files have no lines at all are the two digests (both the
digest of empty input) compared, equal. -/
def Heuristic.is_same (env : Env) (cf : ConflictFile) : Except PyErr Bool :=
  match env.file (ConflictFile.canonical_selected env cf) with
  | none => .error .fileNotFound
  | some selLines =>
    match env.file (ConflictFile.canonical_original env cf) with
    | none => .error .fileNotFound
    | some origLines =>
      if selLines.isEmpty then
        if origLines.isEmpty then .ok true else .error .typeError
      else .error .typeError

/-- `Heuristic.is_nested`: `conflict_file.parent is not None`. -/
def Heuristic.is_nested (cf : ConflictFile) : Bool := cf.parent.isSome

/-- `Heuristic.is_orphan`: the original (derived-ancestor) file is not on
disk. -/
def Heuristic.is_orphan (env : Env) (cf : ConflictFile) : Bool :=
  !(env.isfile (ConflictFile.canonical_original env cf))

/-- `Heuristic.is_obsolete`: the selected (live) file is not on disk. -/
def Heuristic.is_obsolete (env : Env) (cf : ConflictFile) : Bool :=
  !(env.isfile (ConflictFile.canonical_selected env cf))

/-- The ordered heuristic table of `Heuristic.check`: the insertion order of
the `mapping` dict literal, which Python preserves when iterating.  The pure
predicates never raise; `is_same` may. -/
def Heuristic.table :
    List (Nat × (Env → Timestamp → ConflictFile → Except PyErr Bool)) :=
  [(Heuristic.OLD,      fun _ now cf => .ok (Heuristic.is_old now cf)),
   (Heuristic.OBSOLETE, fun env _ cf => .ok (Heuristic.is_obsolete env cf)),
   (Heuristic.SAME,     fun env _ cf => Heuristic.is_same env cf),
   (Heuristic.ORPHANED, fun env _ cf => .ok (Heuristic.is_orphan env cf)),
   (Heuristic.NESTED,   fun _ _ cf => .ok (Heuristic.is_nested cf)),
   (Heuristic.YOUNG,    fun _ now cf => .ok (Heuristic.is_young now cf))]

/-- The loop of `Heuristic.check`: first heuristic that returns true wins; an
exception raised by a heuristic propagates. -/
def Heuristic.checkLoop
    (l : List (Nat × (Env → Timestamp → ConflictFile → Except PyErr Bool)))
    (env : Env) (now : Timestamp) (cf : ConflictFile) : Except PyErr Nat :=
  match l with
  | [] => .ok Heuristic.NONE
  | (i, h) :: rest =>
    match h env now cf with
    | .error e => .error e
    | .ok true => .ok i
    | .ok false => Heuristic.checkLoop rest env now cf

/-- `Heuristic.check`: run the ordered table, returning `NONE` when nothing
matched. -/
def Heuristic.check (env : Env) (now : Timestamp) (cf : ConflictFile) :
    Except PyErr Nat :=
  Heuristic.checkLoop Heuristic.table env now cf

/-! ## Actions -/

/-- Action codes, as the integer constants of class `Action`. -/
def Action.DELETE : Nat := 0
def Action.BACKUP : Nat := 1
def Action.PROMPT : Nat := 2

/-- `Action.mapping`: the dict lookup `mapping[heuristic]`; a key outside the
seven classification constants would raise `KeyError`, embedded as `none`. -/
def Action.mapping (heuristic : Nat) : Option Nat :=
  if heuristic = Heuristic.OLD then some Action.DELETE
  else if heuristic = Heuristic.SAME then some Action.DELETE
  else if heuristic = Heuristic.NESTED then some Action.DELETE
  else if heuristic = Heuristic.OBSOLETE then some Action.DELETE
  else if heuristic = Heuristic.ORPHANED then some Action.DELETE
  else if heuristic = Heuristic.YOUNG then some Action.PROMPT
  else if heuristic = Heuristic.NONE then some Action.BACKUP
  else none

/-! ## Filesystem actions

`ConflictFile.delete`/`ConflictFile.backup` mutate the filesystem when
`args.commit` is set and only print a report line otherwise.  The mutable
filesystem is a `World`; the returned list collects the printed lines. -/

/-- The used part of the parsed command-line arguments. -/
structure Args where
  commit : Bool
  backup_dir : List Char

/-- Mutable filesystem state: regular files (path to text lines) and
directories, as association structures. -/
structure World where
  files : List (List Char × List (List Char))
  dirs : List (List Char)
deriving DecidableEq

/-- Association-list lookup (used for `World.files` and the conflict map). -/
def alookup {α : Type} (p : List Char) : List (List Char × α) → Option α
  | [] => none
  | (k, v) :: rest => if k = p then some v else alookup p rest

/-- `os.remove`: delete a regular file; missing paths raise `OSError`. -/
def World.remove (p : List Char) (w : World) : Except PyErr World :=
  match alookup p w.files with
  | none => .error .osError
  | some _ => .ok { w with files := w.files.filter (fun e => e.1 ≠ p) }

/-- `os.rename`: move a regular file; a missing source raises `OSError`. -/
def World.rename (src dst : List Char) (w : World) : Except PyErr World :=
  match alookup src w.files with
  | none => .error .osError
  | some content =>
    .ok { w with files := w.files.filter (fun e => e.1 ≠ src) ++ [(dst, content)] }

/-- `ConflictFile.backup_directory(args)`: `join(path, args.backup_dir)`. -/
def ConflictFile.backup_directory (args : Args) (cf : ConflictFile) : List Char :=
  pathJoin cf.path args.backup_dir

/-- `ConflictFile.canonical_backup(args)`: `join(backup_directory, name)`. -/
def ConflictFile.canonical_backup (args : Args) (cf : ConflictFile) :
    List Char :=
  pathJoin (ConflictFile.backup_directory args cf) cf.name

/-- `ConflictFile.delete(args)`: remove the file when `commit`, otherwise only
print `delete: <name>`. -/
def ConflictFile.delete (args : Args) (env : Env) (cf : ConflictFile)
    (w : World) : Except PyErr (World × List (List Char)) :=
  if args.commit then
    match World.remove (ConflictFile.canonical_name env cf) w with
    | .error e => .error e
    | .ok w' => .ok (w', [])
  else .ok (w, [String.toList "delete: " ++ cf.name])

/-- `ConflictFile.backup(args)`: when `commit`, create the backup directory if
absent and move the file there; otherwise only print `backup: <name>`. -/
def ConflictFile.backup (args : Args) (env : Env) (cf : ConflictFile)
    (w : World) : Except PyErr (World × List (List Char)) :=
  if args.commit then
    let bdir := ConflictFile.backup_directory args cf
    let w1 := if bdir ∈ w.dirs then w else { w with dirs := bdir :: w.dirs }
    match World.rename (ConflictFile.canonical_name env cf)
        (ConflictFile.canonical_backup args cf) w1 with
    | .error e => .error e
    | .ok w' => .ok (w', [])
  else .ok (w, [String.toList "backup: " ++ cf.name])

/-! ## The CLI index and ancestry builder -/

/-- `Cli.conflict_map`: build the dict `canonical_name -> record` by plain
dict assignment.  Assigning to an existing key replaces its value in place
(keeping the key's insertion position); there is no duplicate check. -/
def dictInsert (k : List Char) (v : ConflictFile)
    (m : List (List Char × ConflictFile)) : List (List Char × ConflictFile) :=
  if m.any (fun e => e.1 = k) then
    m.map (fun e => if e.1 = k then (k, v) else e)
  else m ++ [(k, v)]

/-- `Cli.conflict_map(scan)`. -/
def Cli.conflict_map (env : Env) (scan : List ConflictFile) :
    List (List Char × ConflictFile) :=
  scan.foldl (fun m cf => dictInsert (ConflictFile.canonical_name env cf) cf m) []

/-- `ConflictFile.set_parent` as performed inside `Cli.conflict_tree`: record
the parent key on the child and append the child key to the parent's
`children`.  Records are addressed by their index key, which identifies the
Python objects uniquely. -/
def setParentInMap (childKey parentKey : List Char)
    (m : List (List Char × ConflictFile)) : List (List Char × ConflictFile) :=
  m.map (fun e =>
    let v1 := if e.1 = childKey then { e.2 with parent := some parentKey } else e.2
    let v2 := if e.1 = parentKey then { v1 with children := v1.children ++ [childKey] }
              else v1
    (e.1, v2))

/-- The loop of `Cli.conflict_tree` over the dict items (insertion order).
Roots are collected (with the defensive `assert not conflict_file in
conflict_tree`); for every non-root the parent is looked up by
`conflict_map[conflict_file.canonical_original()]`, which raises `KeyError`
when the key is absent, and `set_parent` runs its own asserts. -/
def conflictTreeAux (env : Env) :
    List (List Char) → List (List Char × ConflictFile) → List (List Char) →
    Except PyErr (List (List Char) × List (List Char × ConflictFile))
  | [], m, tree => .ok (tree, m)
  | k :: keys, m, tree =>
    match alookup k m with
    | none => .error .keyError
    | some cf =>
      if cf.root then
        if k ∈ tree then .error .assertionError
        else conflictTreeAux env keys m (tree ++ [k])
      else
        match alookup (ConflictFile.canonical_original env cf) m with
        | none => .error .keyError
        | some parentCf =>
          if cf.parent.isSome then .error .assertionError
          else if k ∈ parentCf.children then .error .assertionError
          else conflictTreeAux env keys
            (setParentInMap k (ConflictFile.canonical_original env cf) m) tree

/-- `Cli.conflict_tree(conflict_map)`: iterate the map's items; returns the
root list (as keys) and the map with all parent/child links set, or the first
raised exception. -/
def Cli.conflict_tree (env : Env) (m : List (List Char × ConflictFile)) :
    Except PyErr (List (List Char) × List (List Char × ConflictFile)) :=
  conflictTreeAux env (m.map (fun e => e.1)) m []

/-! ## Round-trip re-serialization

`reconstruct(parse(name))` of the spec: parse the name, derive
`selected`/`ext` the way `ConflictFile.__init__` does, and re-insert the
markers at the canonical position. -/

/-- Re-serialize the parsed form of a name (the string the defensive
`assert self.name == str(self)` compares against the raw name). -/
def reconstruct (name : List Char) : List Char :=
  let r := scanConflicts name
  ConflictFile.formatWith (splitext r.2).1 r.1 (splitext r.2).2

/-! ## Concrete scan data used by counterexamples and witnesses -/

/-- A scan root / directory. -/
def dirData : List Char := String.toList "/data"

/-- Scenario A/C shaped name: one marker before the extension. -/
def nameA : List Char :=
  String.toList "report.sync-conflict-20230101-120000-ABC1234.txt"

/-- The marker of `nameA`. -/
def markerA : Conflict := ⟨2023, 1, 1, 12, 0, 0, String.toList "ABC1234"⟩

/-- The record the scanner builds for `nameA`. -/
def cfA : ConflictFile :=
  { path := dirData, base := dirData, name := nameA, conflicts := [markerA],
    selected := String.toList "report", ext := String.toList ".txt",
    original := String.toList "report", root := true,
    parent := none, children := [] }

/-- Scenario B shaped name: two chained markers. -/
def nameB : List Char := String.toList
  "report.sync-conflict-20230101-120000-ABC1234.sync-conflict-20230105-090000-XYZ9876.txt"

/-- The second marker of `nameB`. -/
def markerB : Conflict := ⟨2023, 1, 5, 9, 0, 0, String.toList "XYZ9876"⟩

/-- The record the scanner builds for `nameB` (a nested, non-root record). -/
def cfB : ConflictFile :=
  { path := dirData, base := dirData, name := nameB,
    conflicts := [markerA, markerB],
    selected := String.toList "report", ext := String.toList ".txt",
    original := String.toList "report.sync-conflict-20230101-120000-ABC1234",
    root := false, parent := none, children := [] }

/-- A name matching the marker regex whose date (February 30) makes
`datetime.datetime` raise `ValueError` during parsing. -/
def nameBad : List Char :=
  String.toList "a.sync-conflict-20230230-120000-ABC1234.txt"

/-- A clock reading two days after `markerA`'s timestamp. -/
def nowJan3 : Timestamp := ⟨2023, 1, 3, 12, 0, 0⟩

/-- An environment where no file exists; `realpath` is the identity. -/
def envAbsent : Env := { realpath := fun p => p, file := fun _ => none }

/-- Canonical path of `cfB`'s live (selected) file. -/
def pathSelB : List Char := String.toList "/data/report.txt"

/-- Canonical path of `cfB`'s derived-ancestor (original) file. -/
def pathOrigB : List Char :=
  String.toList "/data/report.sync-conflict-20230101-120000-ABC1234.txt"

/-- Environment where `cfB`'s live and ancestor files both exist with the
same single line of text. -/
def envBothLine : Env :=
  { realpath := fun p => p,
    file := fun p => if p = pathSelB ∨ p = pathOrigB
      then some [String.toList "line"] else none }

/-- Environment where both files exist and both are empty. -/
def envBothEmpty : Env :=
  { realpath := fun p => p,
    file := fun p => if p = pathSelB ∨ p = pathOrigB then some [] else none }

/-- Environment where only the live file exists (the ancestor vanished). -/
def envSelOnly : Env :=
  { realpath := fun p => p,
    file := fun p => if p = pathSelB then some [] else none }

/-- The canonical-path key of `cfB` under `envAbsent`. -/
def keyB : List Char := pathJoin dirData nameB

/-- An environment whose `realpath` collapses the two directories `/x` and
`/y` to the same real directory `/r` (e.g. one is a symlink to the other). -/
def envDup : Env :=
  { realpath := fun p =>
      if p = String.toList "/x" ∨ p = String.toList "/y"
      then String.toList "/r" else p,
    file := fun _ => none }

/-- `cfA` as scanned under directory `/x`. -/
def cfX : ConflictFile := { cfA with path := String.toList "/x", base := String.toList "/x" }

/-- `cfA` as scanned under directory `/y`. -/
def cfY : ConflictFile := { cfA with path := String.toList "/y", base := String.toList "/y" }

/-- The shared canonical path of `cfX` and `cfY` under `envDup`. -/
def pDup : List Char := pathJoin (String.toList "/r") nameA

/-- A dry-run argument vector (`--commit` not given). -/
def argsDry : Args := { commit := false, backup_dir := String.toList ".stbackups" }

/-- A small world with one file and no directories. -/
def worldA : World := { files := [(pathSelB, [])], dirs := [] }

/-! ## Parsing algebra -/

theorem digitChar_toNat (d : Nat) (h : d < 10) : (digitChar d).toNat = 48 + d := by
  interval_cases d <;> decide

theorem isDigitChar_digitChar (d : Nat) (h : d < 10) :
    isDigitChar (digitChar d) = true := by
  interval_cases d <;> decide

theorem digitsToNat_pad2 (n : Nat) (h : n < 100) : digitsToNat (pad2 n) = n := by
  simp only [pad2, digitsToNat, List.foldl]
  rw [digitChar_toNat _ (Nat.mod_lt _ (by omega)),
    digitChar_toNat _ (Nat.mod_lt _ (by omega))]
  omega

theorem digitsToNat_pad4 (n : Nat) (h : n < 10000) : digitsToNat (pad4 n) = n := by
  simp only [pad4, digitsToNat, List.foldl]
  rw [digitChar_toNat _ (Nat.mod_lt _ (by omega)),
    digitChar_toNat _ (Nat.mod_lt _ (by omega)),
    digitChar_toNat _ (Nat.mod_lt _ (by omega)),
    digitChar_toNat _ (Nat.mod_lt _ (by omega))]
  omega

theorem pad2_all_digits (n : Nat) : (pad2 n).all isDigitChar = true := by
  simp only [pad2, List.all_cons, List.all_nil, Bool.and_true]
  rw [isDigitChar_digitChar _ (Nat.mod_lt _ (by omega)),
    isDigitChar_digitChar _ (Nat.mod_lt _ (by omega))]
  rfl

theorem pad4_all_digits (n : Nat) : (pad4 n).all isDigitChar = true := by
  simp only [pad4, List.all_cons, List.all_nil, Bool.and_true]
  rw [isDigitChar_digitChar _ (Nat.mod_lt _ (by omega)),
    isDigitChar_digitChar _ (Nat.mod_lt _ (by omega)),
    isDigitChar_digitChar _ (Nat.mod_lt _ (by omega)),
    isDigitChar_digitChar _ (Nat.mod_lt _ (by omega))]
  rfl

theorem expectLit_append (lit t : List Char) : expectLit lit (lit ++ t) = some t := by
  simp [expectLit, List.take_left, List.drop_left]

theorem takeDigits_of_digits (ds t : List Char) (n : Nat) (hl : ds.length = n)
    (hd : ds.all isDigitChar = true) :
    takeDigits n (ds ++ t) = some (digitsToNat ds, t) := by
  simp [takeDigits, List.take_left' hl, List.drop_left' hl, hl, hd]

theorem takeDigits_pad4 (n : Nat) (t : List Char) (h : n < 10000) :
    takeDigits 4 (pad4 n ++ t) = some (n, t) := by
  rw [takeDigits_of_digits (pad4 n) t 4 rfl (pad4_all_digits n),
    digitsToNat_pad4 n h]

theorem takeDigits_pad2 (n : Nat) (t : List Char) (h : n < 100) :
    takeDigits 2 (pad2 n ++ t) = some (n, t) := by
  rw [takeDigits_of_digits (pad2 n) t 2 rfl (pad2_all_digits n),
    digitsToNat_pad2 n h]

theorem takeUid_of (u t : List Char) (hl : u.length = 7)
    (hu : u.all isUidChar = true) : takeUid (u ++ t) = some (u, t) := by
  simp [takeUid, List.take_left' hl, List.drop_left' hl, hl, hu]

theorem matchMarker_text (m : Conflict) (t : List Char) (h : m.Shaped) :
    matchMarker (m.text ++ t) = some (m, t) := by
  obtain ⟨h1, h2, h3, h4, h5, h6, h7, h8⟩ := h
  simp only [Conflict.text, List.append_assoc]
  rw [matchMarker, expectLit_append]
  simp only [Option.some_bind]
  rw [takeDigits_pad4 _ _ h1]
  simp only [Option.some_bind]
  rw [takeDigits_pad2 _ _ h2]
  simp only [Option.some_bind]
  rw [takeDigits_pad2 _ _ h3]
  simp only [Option.some_bind]
  rw [expectLit_append]
  simp only [Option.some_bind]
  rw [takeDigits_pad2 _ _ h4]
  simp only [Option.some_bind]
  rw [takeDigits_pad2 _ _ h5]
  simp only [Option.some_bind]
  rw [takeDigits_pad2 _ _ h6]
  simp only [Option.some_bind]
  rw [expectLit_append]
  simp only [Option.some_bind]
  rw [takeUid_of _ _ h7 h8]
  rfl

theorem expectLit_some (lit s r : List Char) (h : expectLit lit s = some r) :
    r = s.drop lit.length ∧ lit.length ≤ s.length := by
  unfold expectLit at h
  split at h
  · next hp =>
    have hlen : (s.take lit.length).length = lit.length := by rw [hp]
    simp only [List.length_take] at hlen
    exact ⟨(Option.some.injEq _ _).mp h |>.symm, by omega⟩
  · exact absurd h (by simp)

theorem takeDigits_some (n : Nat) (s : List Char) (p : Nat × List Char)
    (h : takeDigits n s = some p) : p.2 = s.drop n ∧ n ≤ s.length := by
  unfold takeDigits at h
  split at h
  · next hp =>
    have hlen := hp.1
    simp only [List.length_take] at hlen
    have := (Option.some.injEq _ _).mp h
    exact ⟨by rw [← this], by omega⟩
  · exact absurd h (by simp)

theorem takeUid_some (s : List Char) (p : List Char × List Char)
    (h : takeUid s = some p) : p.2 = s.drop 7 ∧ 7 ≤ s.length := by
  unfold takeUid at h
  split at h
  · next hp =>
    have hlen := hp.1
    simp only [List.length_take] at hlen
    have := (Option.some.injEq _ _).mp h
    exact ⟨by rw [← this], by omega⟩
  · exact absurd h (by simp)

theorem matchMarker_some (s : List Char) (p : Conflict × List Char)
    (h : matchMarker s = some p) : p.2 = s.drop 38 ∧ 38 ≤ s.length := by
  unfold matchMarker at h
  cases he1 : expectLit litConflict s with
  | none => rw [he1] at h; exact absurd h (by simp)
  | some s1 =>
  rw [he1] at h; simp only [Option.some_bind] at h
  obtain ⟨hs1, hl1⟩ := expectLit_some _ _ _ he1
  cases he2 : takeDigits 4 s1 with
  | none => rw [he2] at h; exact absurd h (by simp)
  | some p1 =>
  rw [he2] at h; simp only [Option.some_bind] at h
  obtain ⟨hs2, hl2⟩ := takeDigits_some _ _ _ he2
  cases he3 : takeDigits 2 p1.2 with
  | none => rw [he3] at h; exact absurd h (by simp)
  | some p2 =>
  rw [he3] at h; simp only [Option.some_bind] at h
  obtain ⟨hs3, hl3⟩ := takeDigits_some _ _ _ he3
  cases he4 : takeDigits 2 p2.2 with
  | none => rw [he4] at h; exact absurd h (by simp)
  | some p3 =>
  rw [he4] at h; simp only [Option.some_bind] at h
  obtain ⟨hs4, hl4⟩ := takeDigits_some _ _ _ he4
  cases he5 : expectLit ['-'] p3.2 with
  | none => rw [he5] at h; exact absurd h (by simp)
  | some s4 =>
  rw [he5] at h; simp only [Option.some_bind] at h
  obtain ⟨hs5, hl5⟩ := expectLit_some _ _ _ he5
  cases he6 : takeDigits 2 s4 with
  | none => rw [he6] at h; exact absurd h (by simp)
  | some p5 =>
  rw [he6] at h; simp only [Option.some_bind] at h
  obtain ⟨hs6, hl6⟩ := takeDigits_some _ _ _ he6
  cases he7 : takeDigits 2 p5.2 with
  | none => rw [he7] at h; exact absurd h (by simp)
  | some p6 =>
  rw [he7] at h; simp only [Option.some_bind] at h
  obtain ⟨hs7, hl7⟩ := takeDigits_some _ _ _ he7
  cases he8 : takeDigits 2 p6.2 with
  | none => rw [he8] at h; exact absurd h (by simp)
  | some p7 =>
  rw [he8] at h; simp only [Option.some_bind] at h
  obtain ⟨hs8, hl8⟩ := takeDigits_some _ _ _ he8
  cases he9 : expectLit ['-'] p7.2 with
  | none => rw [he9] at h; exact absurd h (by simp)
  | some s8 =>
  rw [he9] at h; simp only [Option.some_bind] at h
  obtain ⟨hs9, hl9⟩ := expectLit_some _ _ _ he9
  cases he10 : takeUid s8 with
  | none => rw [he10] at h; exact absurd h (by simp)
  | some p9 =>
  rw [he10] at h; simp only [Option.map_some'] at h
  obtain ⟨hs10, hl10⟩ := takeUid_some _ _ he10
  have hp := (Option.some.injEq _ _).mp h
  have hlit : litConflict.length = 15 := by decide
  have hdrop : p9.2 = s.drop 38 := by
    rw [hs10, hs9, hs8, hs7, hs6, hs5, hs4, hs3, hs2, hs1]
    simp only [List.drop_drop, List.length_cons, List.length_nil, hlit]
  rw [hs9, hs8, hs7, hs6, hs5, hs4, hs3, hs2, hs1] at hl10
  simp only [List.drop_drop, List.length_drop, List.length_cons, List.length_nil, hlit] at hl10
  constructor
  · rw [← hp]; exact hdrop
  · omega

theorem scanAux_nil (fuel : Nat) : scanAux fuel [] = ([], []) := by
  cases fuel <;> rfl

theorem scanAux_cons_match (fuel : Nat) (c : Char) (rest r : List Char)
    (m : Conflict) (hm : matchMarker (c :: rest) = some (m, r)) :
    scanAux (fuel + 1) (c :: rest) =
      (m :: (scanAux fuel r).1, (scanAux fuel r).2) := by
  simp [scanAux, hm]

theorem scanAux_cons_nomatch (fuel : Nat) (c : Char) (rest : List Char)
    (hm : matchMarker (c :: rest) = none) :
    scanAux (fuel + 1) (c :: rest) =
      ((scanAux fuel rest).1, c :: (scanAux fuel rest).2) := by
  simp [scanAux, hm]

theorem scanAux_fuel (f1 : Nat) : ∀ (f2 : Nat) (s : List Char),
    s.length ≤ f1 → s.length ≤ f2 → scanAux f1 s = scanAux f2 s := by
  induction f1 with
  | zero =>
    intro f2 s h1 _
    have : s = [] := List.eq_nil_of_length_eq_zero (by omega)
    subst this
    rw [scanAux_nil, scanAux_nil]
  | succ f ih =>
    intro f2 s h1 h2
    cases s with
    | nil => rw [scanAux_nil, scanAux_nil]
    | cons c rest =>
      cases f2 with
      | zero => simp at h2
      | succ g =>
        cases hm : matchMarker (c :: rest) with
        | some p =>
          obtain ⟨hr, hlen⟩ := matchMarker_some _ _ hm
          rw [scanAux_cons_match f c rest p.2 p.1 (by rw [hm]),
            scanAux_cons_match g c rest p.2 p.1 (by rw [hm])]
          have hrl : p.2.length ≤ f ∧ p.2.length ≤ g := by
            rw [hr]
            simp only [List.length_drop, List.length_cons] at h1 h2 hlen ⊢
            omega
          rw [ih g p.2 hrl.1 hrl.2]
        | none =>
          rw [scanAux_cons_nomatch f c rest hm, scanAux_cons_nomatch g c rest hm]
          have hrl : rest.length ≤ f ∧ rest.length ≤ g := by
            simp only [List.length_cons] at h1 h2
            omega
          rw [ih g rest hrl.1 hrl.2]

theorem scanConflicts_cons_nomatch (c : Char) (t : List Char)
    (hm : matchMarker (c :: t) = none) :
    scanConflicts (c :: t) = ((scanConflicts t).1, c :: (scanConflicts t).2) := by
  unfold scanConflicts
  simp only [List.length_cons]
  exact scanAux_cons_nomatch t.length c t hm

theorem matchMarker_short (s : List Char) (h : s.length < 38) :
    matchMarker s = none := by
  cases hm : matchMarker s with
  | none => rfl
  | some p =>
    obtain ⟨_, hlen⟩ := matchMarker_some _ _ hm
    omega

theorem scanConflicts_nomatch_all (t : List Char)
    (h : ∀ i, i < t.length → matchMarker (t.drop i) = none) :
    scanConflicts t = ([], t) := by
  induction t with
  | nil => rfl
  | cons c r ih =>
    have h0 : matchMarker (c :: r) = none := h 0 (by simp)
    rw [scanConflicts_cons_nomatch c r h0,
      ih (fun i hi => h (i + 1) (by simp; omega))]

theorem conflictText_ne_nil (m : Conflict) : m.text ≠ [] := by
  simp only [Conflict.text]
  intro hc
  rw [List.append_assoc, List.append_assoc, List.append_assoc, List.append_assoc,
    List.append_assoc, List.append_assoc, List.append_assoc, List.append_assoc] at hc
  have := (List.append_eq_nil.mp hc).1
  exact absurd this (by decide)

theorem scanConflicts_marker (m : Conflict) (t : List Char) (h : m.Shaped) :
    scanConflicts (m.text ++ t) =
      (m :: (scanConflicts t).1, (scanConflicts t).2) := by
  have hmt := matchMarker_text m t h
  have hlt : (m.text ++ t).length = 38 + t.length := by
    obtain ⟨h2, hlen⟩ := matchMarker_some _ _ hmt
    have h3 := congrArg List.length h2
    simp only [List.length_drop, List.length_append] at h3 hlen ⊢
    omega
  cases hs : m.text ++ t with
  | nil => exact absurd hs (by simp [conflictText_ne_nil m])
  | cons c tail =>
    rw [hs] at hmt
    have htl : tail.length = 37 + t.length := by
      have := congrArg List.length hs
      simp only [List.length_cons] at this
      omega
    unfold scanConflicts
    rw [← hs, hs]
    simp only [List.length_cons, htl]
    rw [scanAux_cons_match (37 + t.length) c tail t m hmt]
    rw [scanAux_fuel (37 + t.length) t.length t (by omega) (by omega)]

theorem scanConflicts_prefix_nomatch (sel : List Char) : ∀ (u : List Char),
    (∀ i, i < sel.length → matchMarker ((sel ++ u).drop i) = none) →
    scanConflicts (sel ++ u) =
      ((scanConflicts u).1, sel ++ (scanConflicts u).2) := by
  induction sel with
  | nil => intro u _; simp
  | cons c s ih =>
    intro u h
    have h0 : matchMarker (c :: (s ++ u)) = none := h 0 (by simp)
    rw [List.cons_append, scanConflicts_cons_nomatch c (s ++ u) h0,
      ih u (fun i hi => by
        have := h (i + 1) (by simp; omega)
        simpa using this)]
    simp

theorem conflictFormat_cons (m : Conflict) (l : List Conflict) :
    Conflict.format (m :: l) = m.text ++ Conflict.format l := by
  have acc : ∀ (l : List Conflict) (a : List Char),
      l.foldl (fun s c => s ++ c.text) a = a ++ l.foldl (fun s c => s ++ c.text) [] := by
    intro l
    induction l with
    | nil => intro a; simp [List.foldl]
    | cons x xs ihx =>
      intro a
      simp only [List.foldl]
      rw [ihx (a ++ x.text), ihx ([] ++ x.text)]
      simp [List.append_assoc]
  simp only [Conflict.format, List.foldl]
  rw [acc l ([] ++ m.text)]
  simp

theorem scanConflicts_markers (ms : List Conflict) : ∀ (t : List Char),
    (∀ m ∈ ms, m.Shaped) →
    scanConflicts (Conflict.format ms ++ t) =
      (ms ++ (scanConflicts t).1, (scanConflicts t).2) := by
  induction ms with
  | nil => intro t _; simp [Conflict.format]
  | cons m rest ih =>
    intro t h
    rw [conflictFormat_cons, List.append_assoc,
      scanConflicts_marker m _ (h m (by simp)),
      ih t (fun x hx => h x (by simp [hx]))]
    simp

theorem conflictFormat_eq_nil_iff (l : List Conflict) :
    Conflict.format l = [] ↔ l = [] := by
  cases l with
  | nil => simp [Conflict.format]
  | cons m rest =>
    rw [conflictFormat_cons]
    simp only [List.append_eq_nil]
    constructor
    · intro hc; exact absurd hc.1 (conflictText_ne_nil m)
    · intro hc; exact absurd hc (by simp)

theorem dropLast_eq_nil_iff (l : List Conflict) :
    l.dropLast = [] ↔ l.length ≤ 1 := by
  constructor
  · intro h
    have := congrArg List.length h
    simp only [List.length_dropLast, List.length_nil] at this
    omega
  · intro h
    have : l.dropLast.length = 0 := by simp [List.length_dropLast]; omega
    exact List.eq_nil_of_length_eq_zero this

theorem scanBuild_ok (p b n : List Char) (cf : ConflictFile)
    (h : scanBuild p b n = .ok (some cf)) :
    cf.path = p ∧ cf.base = b ∧ cf.name = n ∧
    cf.conflicts = (scanConflicts n).1 ∧ cf.conflicts ≠ [] ∧
    cf.selected = (splitext (scanConflicts n).2).1 ∧
    cf.ext = (splitext (scanConflicts n).2).2 ∧
    cf.original = cf.selected ++ Conflict.format cf.conflicts.dropLast ∧
    cf.root = decide (cf.original = cf.selected) ∧
    cf.parent = none ∧ cf.children = [] ∧
    n = ConflictFile.formatWith cf.selected cf.conflicts cf.ext := by
  unfold scanBuild at h
  cases hp : Conflict.parse n with
  | error e => rw [hp] at h; exact absurd h (by simp)
  | ok cs =>
    rw [hp] at h
    have hcs : cs = (scanConflicts n).1 := by
      simp only [Conflict.parse] at hp
      split at hp
      · exact (Except.ok.inj hp).symm
      · exact absurd hp (by simp)
    simp only at h
    split at h
    · exact absurd h (by simp)
    · next hne =>
      cases hi : ConflictFile.init p b n cs with
      | error e => rw [hi] at h; exact absurd h (by simp)
      | ok cf' =>
        rw [hi] at h
        simp only at h
        have hcf : cf' = cf := Option.some.inj (Except.ok.inj h)
        subst hcf
        simp only [ConflictFile.init] at hi
        split at hi
        · next hname =>
          have hrec := (Except.ok.inj hi).symm
          subst hrec
          have hne2 : cs ≠ [] := by
            cases cs with
            | nil => simp at hne
            | cons x xs => simp
          refine ⟨rfl, rfl, rfl, hcs, hne2, ?_, ?_, ?_, ?_, rfl, rfl, ?_⟩
          · rfl
          · rfl
          · rfl
          · rfl
          · exact hname
        · exact absurd hi (by simp)

theorem scanBuild_root_iff (p b n : List Char) (cf : ConflictFile)
    (h : scanBuild p b n = .ok (some cf)) :
    (cf.root = true ↔ cf.conflicts.length = 1) ∧
    (cf.root = true ↔ cf.original = cf.selected) ∧
    (cf.conflicts.length = 1 → cf.original = cf.selected) := by
  obtain ⟨_, _, _, _, hne, _, _, horig, hroot, _, _, _⟩ := scanBuild_ok p b n cf h
  have h2 : cf.root = true ↔ cf.original = cf.selected := by
    rw [hroot]; exact decide_eq_true_iff
  have h3 : cf.original = cf.selected ↔ cf.conflicts.length = 1 := by
    rw [horig]
    constructor
    · intro he
      have : Conflict.format cf.conflicts.dropLast = [] := by
        have := List.append_right_eq_self.mp he
        exact this
      have hd := (conflictFormat_eq_nil_iff _).mp this
      have hl := (dropLast_eq_nil_iff _).mp hd
      have : cf.conflicts.length ≠ 0 := by
        intro hz
        exact hne (List.eq_nil_of_length_eq_zero hz)
      omega
    · intro hl
      have hd : cf.conflicts.dropLast = [] := (dropLast_eq_nil_iff _).mpr (by omega)
      rw [hd]
      simp [Conflict.format]
  exact ⟨h2.trans h3, h2, fun hl => h3.mpr hl⟩

/-! ## The classifier as an ordered chain -/

theorem check_eq_chain (env : Env) (now : Timestamp) (cf : ConflictFile) :
    Heuristic.check env now cf =
      (if Heuristic.is_old now cf then Except.ok Heuristic.OLD
       else if Heuristic.is_obsolete env cf then Except.ok Heuristic.OBSOLETE
       else match Heuristic.is_same env cf with
         | .error e => .error e
         | .ok true => .ok Heuristic.SAME
         | .ok false =>
           if Heuristic.is_orphan env cf then .ok Heuristic.ORPHANED
           else if Heuristic.is_nested cf then .ok Heuristic.NESTED
           else if Heuristic.is_young now cf then .ok Heuristic.YOUNG
           else .ok Heuristic.NONE) := by
  cases h1 : Heuristic.is_old now cf with
  | true => simp [Heuristic.check, Heuristic.checkLoop, Heuristic.table, h1]
  | false =>
  cases h2 : Heuristic.is_obsolete env cf with
  | true => simp [Heuristic.check, Heuristic.checkLoop, Heuristic.table, h1, h2]
  | false =>
  cases h3 : Heuristic.is_same env cf with
  | error e => simp [Heuristic.check, Heuristic.checkLoop, Heuristic.table, h1, h2, h3]
  | ok bsame =>
  cases bsame with
  | true => simp [Heuristic.check, Heuristic.checkLoop, Heuristic.table, h1, h2, h3]
  | false =>
  cases h4 : Heuristic.is_orphan env cf with
  | true => simp [Heuristic.check, Heuristic.checkLoop, Heuristic.table, h1, h2, h3, h4]
  | false =>
  cases h5 : Heuristic.is_nested cf with
  | true => simp [Heuristic.check, Heuristic.checkLoop, Heuristic.table, h1, h2, h3, h4, h5]
  | false =>
  cases h6 : Heuristic.is_young now cf with
  | true =>
    simp [Heuristic.check, Heuristic.checkLoop, Heuristic.table, h1, h2, h3, h4, h5, h6]
  | false =>
    simp [Heuristic.check, Heuristic.checkLoop, Heuristic.table, h1, h2, h3, h4, h5, h6]

/-- **C1.**  `Heuristic.check` evaluates its predicates as the ordered chain
OLD, OBSOLETE, SAME, ORPHANED, NESTED, YOUNG and returns the classification of
the first predicate that holds — later predicates are not evaluated — falling
through to NONE when none holds (an exception raised by `is_same` propagates);
and OLD holds exactly when the record's age exceeds 30 days in seconds, while
YOUNG holds exactly when its age is under 5 days in seconds. -/
theorem claim_C1_ordered_chain (env : Env) (now : Timestamp) (cf : ConflictFile) :
    (Heuristic.check env now cf =
      (if Heuristic.is_old now cf then Except.ok Heuristic.OLD
       else if Heuristic.is_obsolete env cf then Except.ok Heuristic.OBSOLETE
       else match Heuristic.is_same env cf with
         | .error e => .error e
         | .ok true => .ok Heuristic.SAME
         | .ok false =>
           if Heuristic.is_orphan env cf then .ok Heuristic.ORPHANED
           else if Heuristic.is_nested cf then .ok Heuristic.NESTED
           else if Heuristic.is_young now cf then .ok Heuristic.YOUNG
           else .ok Heuristic.NONE)) ∧
    (Heuristic.is_old now cf = true ↔
      ConflictFile.age_in_seconds now cf > 30 * 60 * 60 * 24) ∧
    (Heuristic.is_young now cf = true ↔
      ConflictFile.age_in_seconds now cf < 5 * 60 * 60 * 24) := by
  refine ⟨check_eq_chain env now cf, ?_, ?_⟩
  · unfold Heuristic.is_old
    exact decide_eq_true_iff
  · unfold Heuristic.is_young
    exact decide_eq_true_iff

/-- **C2, counterexample.**  The single-marker scenario of the claim
(Scenario C: age 2 days, derived-ancestor file absent from disk, record built
by the scanner) does *not* classify as ORPHANED: for a single-marker record
`original == selected`, so the missing derived-ancestor file is the missing
live file and the earlier OBSOLETE predicate (priority 2) fires first. -/
theorem claim_C2_counterexample :
    scanBuild dirData dirData nameA = .ok (some cfA) ∧
    cfA.conflicts.length = 1 ∧
    envAbsent.file (ConflictFile.canonical_original envAbsent cfA) = none ∧
    ConflictFile.age_in_seconds nowJan3 cfA = 172800 ∧
    Heuristic.check envAbsent nowJan3 cfA = .ok Heuristic.OBSOLETE ∧
    Heuristic.OBSOLETE ≠ Heuristic.ORPHANED := by
  exact ⟨rfl, rfl, rfl, rfl, rfl, by decide⟩

/-- **C2, amended.**  For every scanner-built record with exactly one marker
whose derived-ancestor file is absent from disk and whose age does not exceed
30 days, `Heuristic.check` returns OBSOLETE (the derived-ancestor path of a
single-marker record *is* the live path, so OBSOLETE fires at priority 2
before ORPHANED is reached), and OBSOLETE still maps to the action DELETE. -/
theorem claim_C2_amended (env : Env) (now : Timestamp) (p b n : List Char)
    (cf : ConflictFile)
    (hbuild : scanBuild p b n = .ok (some cf))
    (hone : cf.conflicts.length = 1)
    (horig : env.file (ConflictFile.canonical_original env cf) = none)
    (hage : ConflictFile.age_in_seconds now cf ≤ 30 * 60 * 60 * 24) :
    Heuristic.check env now cf = .ok Heuristic.OBSOLETE ∧
    Action.mapping Heuristic.OBSOLETE = some Action.DELETE := by
  have hsel : cf.original = cf.selected :=
    (scanBuild_root_iff p b n cf hbuild).2.2 hone
  have hco : ConflictFile.canonical_original env cf =
      ConflictFile.canonical_selected env cf := by
    unfold ConflictFile.canonical_original ConflictFile.canonical_selected
    rw [hsel]
  have hold : Heuristic.is_old now cf = false := by
    unfold Heuristic.is_old
    simp only [decide_eq_false_iff_not]
    omega
  have hobs : Heuristic.is_obsolete env cf = true := by
    unfold Heuristic.is_obsolete Env.isfile
    rw [← hco, horig]
    rfl
  rw [check_eq_chain env now cf, hold, hobs]
  exact ⟨rfl, rfl⟩

/-- **C2, witness.**  The amended claim applied to the concrete Scenario C
record `cfA` (one marker, age two days, no file on disk). -/
theorem claim_C2_amended_witness :
    Heuristic.check envAbsent nowJan3 cfA = .ok Heuristic.OBSOLETE ∧
    Action.mapping Heuristic.OBSOLETE = some Action.DELETE :=
  claim_C2_amended envAbsent nowJan3 dirData dirData nameA cfA rfl rfl rfl
    (by decide)

/-- **C3.**  `Heuristic.is_same` never performs the byte-wise content
comparison the claim describes.  On the scanner-built nested record `cfB`
(whose live and ancestor paths are distinct): with both files present and
holding one identical line of text it raises `TypeError` (the text-mode line,
a `str`, is fed to `hashlib.sha256().update`); with the ancestor file absent
it raises `FileNotFoundError` from `open` instead of the predicate being
false; only when both files are completely empty does it return true (the two
digests are both the digest of empty input). -/
theorem claim_C3_same_content_broken :
    scanBuild dirData dirData nameB = .ok (some cfB) ∧
    Heuristic.is_same envBothLine cfB = .error .typeError ∧
    Heuristic.is_same envSelOnly cfB = .error .fileNotFound ∧
    Heuristic.is_same envBothEmpty cfB = .ok true := by
  exact ⟨rfl, rfl, rfl, rfl⟩

/-- **C4.**  Ancestry building *does* fail when a non-root record's
canonical-original path is absent from the index: `Cli.conflict_tree` looks
the parent up with `conflict_map[conflict_file.canonical_original()]`, which
raises `KeyError`; the forest construction aborts instead of leaving the
record parentless.  Shown on the scanner-built two-marker record `cfB`
indexed alone (its ancestor conflict file was not scanned). -/
theorem claim_C4_orphan_keyerror :
    scanBuild dirData dirData nameB = .ok (some cfB) ∧
    cfB.root = false ∧
    alookup (ConflictFile.canonical_original envAbsent cfB) [(keyB, cfB)] = none ∧
    Cli.conflict_tree envAbsent [(keyB, cfB)] = .error .keyError := by
  exact ⟨rfl, rfl, rfl, rfl⟩

/-- **C5, counterexample.**  `a.sync-conflict-20230230-120000-ABC1234.txt`
matches the conflict-name grammar (8-digit date, 6-digit time, 7-character
uid, marker before the extension) and its re-serialization reproduces the raw
name exactly, yet construction still fails — not with the `MalformedName`
self-check but with the `ValueError` that `datetime.datetime` raises on the
invalid calendar date February 30 while `Conflict.parse` builds the marker.
So construction failure is *not* equivalent to re-serialization mismatch. -/
theorem claim_C5_counterexample :
    reconstruct nameBad = nameBad ∧
    Conflict.parse nameBad = .error .valueError ∧
    scanBuild dirData dirData nameBad = .error .valueError := by
  exact ⟨rfl, rfl, rfl⟩

/-- **C5, amended.**  For every filename of the grammar shape
`selected ++ markers ++ extension` — at least one well-formed marker carrying
a *valid* calendar date and time, no marker match starting inside the stem or
the extension, and `splitext` splitting the stripped name back into the same
stem and extension — `reconstruct(parse(name))` reproduces the name exactly
and scanner construction succeeds with exactly those markers; and the
`MalformedName` self-check of `ConflictFile.__init__` fails exactly when the
re-serialization of the given fields does not reproduce the raw name (while
invalid calendar fields instead fail earlier, in parsing, per the
counterexample). -/
theorem claim_C5_roundtrip (p b sel ext : List Char) (ms : List Conflict)
    (name : List Char)
    (hname : name = sel ++ Conflict.format ms ++ ext)
    (hms : ms ≠ [])
    (hshape : ∀ m ∈ ms, m.Shaped)
    (hvalid : ∀ m ∈ ms, m.validDatetime = true)
    (hsel : ∀ i, i < sel.length → matchMarker (name.drop i) = none)
    (hext : ∀ i, i < ext.length → matchMarker (ext.drop i) = none)
    (hsplit : splitext (sel ++ ext) = (sel, ext)) :
    reconstruct name = name ∧
    (∃ cf, scanBuild p b name = .ok (some cf) ∧ cf.conflicts = ms ∧
      cf.selected = sel ∧ cf.ext = ext) ∧
    (∀ (n' : List Char) (cs : List Conflict),
      ConflictFile.init p b n' cs = .error .assertionError ↔
        n' ≠ ConflictFile.formatWith (splitext (scanConflicts n').2).1 cs
          (splitext (scanConflicts n').2).2) := by
  have hu : scanConflicts (Conflict.format ms ++ ext) = (ms, ext) := by
    rw [scanConflicts_markers ms ext hshape, scanConflicts_nomatch_all ext hext]
    simp
  have hpre : ∀ i, i < sel.length →
      matchMarker ((sel ++ (Conflict.format ms ++ ext)).drop i) = none := by
    intro i hi
    have hh := hsel i hi
    rwa [hname, List.append_assoc] at hh
  have hscan : scanConflicts name = (ms, sel ++ ext) := by
    rw [hname, List.append_assoc, scanConflicts_prefix_nomatch sel _ hpre, hu]
  have hall : ms.all Conflict.validDatetime = true := by
    rw [List.all_eq_true]
    intro m hm
    exact hvalid m hm
  have hparse : Conflict.parse name = .ok ms := by
    simp only [Conflict.parse, hscan]
    rw [if_pos hall]
  have hempty : ms.isEmpty = false := by
    cases ms with
    | nil => exact absurd rfl hms
    | cons x xs => rfl
  have hfw : name = ConflictFile.formatWith sel ms ext := hname
  refine ⟨?_, ?_, ?_⟩
  · unfold reconstruct
    rw [hscan]
    simp only [hsplit]
    exact hfw.symm
  · refine ⟨⟨p, b, name, ms, sel, ext, sel ++ Conflict.format ms.dropLast,
      decide (sel ++ Conflict.format ms.dropLast = sel), none, []⟩, ?_, rfl, rfl, rfl⟩
    unfold scanBuild
    rw [hparse]
    simp only [hempty, Bool.false_eq_true, if_false]
    simp only [ConflictFile.init, hscan, hsplit]
    rw [if_pos hfw]
  · intro n' cs
    simp only [ConflictFile.init]
    split
    · next hh => exact ⟨fun hcontra => absurd hcontra (by simp), fun hne => absurd hh hne⟩
    · next hh => exact ⟨fun _ => hh, fun _ => rfl⟩

/-- **C5, witness.**  The amended round-trip claim applied to the concrete
name `report.sync-conflict-20230101-120000-ABC1234.txt`, and its
`MalformedName`-iff part applied to the concrete name/marker pair
(`nameBad`, `[markerA]`) whose re-serialization moves the marker. -/
theorem claim_C5_roundtrip_witness :
    reconstruct nameA = nameA ∧
    (ConflictFile.init dirData dirData nameBad [markerA] = .error .assertionError ↔
      nameBad ≠ ConflictFile.formatWith (splitext (scanConflicts nameBad).2).1
        [markerA] (splitext (scanConflicts nameBad).2).2) := by
  have hh := claim_C5_roundtrip dirData dirData (String.toList "report")
    (String.toList ".txt") [markerA] nameA rfl (by decide) (by decide)
    (by decide) (by decide) (by decide) (by decide)
  exact ⟨hh.1, hh.2.2 nameBad [markerA]⟩

/-- **C6.**  The classification-to-action dict is a total mapping on exactly
the seven classification codes: OLD, SAME, NESTED, ORPHANED and OBSOLETE map
to DELETE, YOUNG to PROMPT and NONE to BACKUP; any other key would be a
`KeyError`; no code other than YOUNG yields PROMPT and only NONE yields
BACKUP. -/
theorem claim_C6_action_totality (h : Nat) :
    ((Action.mapping h).isSome = true ↔ h < 7) ∧
    (Action.mapping h = some Action.DELETE ↔
      (h = Heuristic.OLD ∨ h = Heuristic.SAME ∨ h = Heuristic.NESTED ∨
       h = Heuristic.ORPHANED ∨ h = Heuristic.OBSOLETE)) ∧
    (Action.mapping h = some Action.PROMPT ↔ h = Heuristic.YOUNG) ∧
    (Action.mapping h = some Action.BACKUP ↔ h = Heuristic.NONE) := by
  unfold Action.mapping Heuristic.NONE Heuristic.OLD Heuristic.SAME
    Heuristic.NESTED Heuristic.ORPHANED Heuristic.OBSOLETE Heuristic.YOUNG
    Action.DELETE Action.BACKUP Action.PROMPT
  split_ifs with h1 h2 h3 h4 h5 h6 h7 <;> (simp_all; try omega)

/-- **C7.**  Every record the scanner successfully builds is a root exactly
when it carries a single marker, equivalently exactly when its original stem
equals its selected stem. -/
theorem claim_C7_root_iff (p b n : List Char) (cf : ConflictFile)
    (h : scanBuild p b n = .ok (some cf)) :
    (cf.root = true ↔ cf.conflicts.length = 1) ∧
    (cf.root = true ↔ cf.original = cf.selected) := by
  obtain ⟨h1, h2, _⟩ := scanBuild_root_iff p b n cf h
  exact ⟨h1, h2⟩

/-- **C7, witness.**  The root law instantiated at the concrete single-marker
record `cfA`. -/
theorem claim_C7_root_iff_witness :
    (cfA.root = true ↔ cfA.conflicts.length = 1) ∧
    (cfA.root = true ↔ cfA.original = cfA.selected) :=
  claim_C7_root_iff dirData dirData nameA cfA rfl

/-! ## Association-list facts for the conflict map -/

theorem alookup_map_ne (p k : List Char) (v : ConflictFile)
    (m : List (List Char × ConflictFile)) (hne : k ≠ p) :
    alookup p (m.map (fun e => if e.1 = k then (k, v) else e)) = alookup p m := by
  induction m with
  | nil => rfl
  | cons e rest ih =>
    simp only [List.map_cons]
    by_cases he : e.1 = k
    · rw [if_pos he]
      simp only [alookup]
      rw [if_neg hne, if_neg (by rw [he]; exact hne), ih]
    · rw [if_neg he]
      simp only [alookup]
      by_cases hp : e.1 = p
      · rw [if_pos hp, if_pos hp]
      · rw [if_neg hp, if_neg hp, ih]

theorem alookup_map_upd (p k : List Char) (v : ConflictFile)
    (m : List (List Char × ConflictFile))
    (hany : m.any (fun e => e.1 = k) = true) :
    alookup p (m.map (fun e => if e.1 = k then (k, v) else e)) =
      if k = p then some v else alookup p m := by
  induction m with
  | nil => simp at hany
  | cons e rest ih =>
    simp only [List.map_cons]
    by_cases he : e.1 = k
    · rw [if_pos he]
      by_cases hp : k = p
      · subst hp
        simp [alookup]
      · simp only [alookup]
        rw [if_neg hp, if_neg hp, if_neg (by rw [he]; exact hp),
          alookup_map_ne p k v rest hp]
    · rw [if_neg he]
      have hany2 : rest.any (fun e => e.1 = k) = true := by
        simp only [List.any_cons] at hany
        rcases Bool.or_eq_true_iff.mp hany with hx | hx
        · exact absurd (of_decide_eq_true hx) he
        · exact hx
      simp only [alookup]
      by_cases hp : e.1 = p
      · rw [if_pos hp, if_pos hp, if_neg (by intro hkp; rw [← hkp] at hp; exact he hp)]
      · rw [if_neg hp, if_neg hp, ih hany2]

theorem alookup_append_single (p k : List Char) (v : ConflictFile)
    (m : List (List Char × ConflictFile))
    (hany : m.any (fun e => e.1 = k) = false) :
    alookup p (m ++ [(k, v)]) = if k = p then some v else alookup p m := by
  induction m with
  | nil => simp [alookup]
  | cons e rest ih =>
    simp only [List.any_cons, Bool.or_eq_false_iff] at hany
    have hek : e.1 ≠ k := by
      intro hx
      have := hany.1
      simp [hx] at this
    simp only [List.cons_append, List.append_eq, alookup]
    by_cases hp : e.1 = p
    · have hkp : k ≠ p := by
        intro hkp
        rw [hkp] at hek
        exact hek hp
      rw [if_pos hp, if_pos hp, if_neg hkp]
    · rw [if_neg hp, if_neg hp, ih hany.2]

theorem alookup_dictInsert (p k : List Char) (v : ConflictFile)
    (m : List (List Char × ConflictFile)) :
    alookup p (dictInsert k v m) = if k = p then some v else alookup p m := by
  unfold dictInsert
  cases hany : m.any (fun e => e.1 = k) with
  | true => simp only [if_pos rfl]; exact alookup_map_upd p k v m hany
  | false => simp only [Bool.false_eq_true, if_false]; exact alookup_append_single p k v m hany

theorem getLast?_cons_or {α : Type} (a : α) (l : List α) :
    (a :: l).getLast? = Option.or l.getLast? (some a) := by
  induction l generalizing a with
  | nil => rfl
  | cons b l' ih =>
    rw [List.getLast?_cons_cons, ih b]
    cases hl : l'.getLast? <;> simp [Option.or]

theorem alookup_conflict_map_general (env : Env) (scan : List ConflictFile) :
    ∀ (m : List (List Char × ConflictFile)) (p : List Char),
    alookup p (scan.foldl
        (fun acc cf => dictInsert (ConflictFile.canonical_name env cf) cf acc) m) =
      Option.or
        ((scan.filter
          (fun cf => ConflictFile.canonical_name env cf = p)).getLast?)
        (alookup p m) := by
  induction scan with
  | nil => intro m p; simp
  | cons cf rest ih =>
    intro m p
    simp only [List.foldl_cons, List.filter_cons]
    rw [ih (dictInsert (ConflictFile.canonical_name env cf) cf m) p,
      alookup_dictInsert]
    by_cases hc : ConflictFile.canonical_name env cf = p
    · rw [if_pos hc]
      rw [if_pos (by simp [hc])]
      rw [getLast?_cons_or, Option.or_assoc, Option.or_some]
    · rw [if_neg hc]
      rw [if_neg (by simp [hc])]

theorem filter_last_pairwise (env : Env) (scan : List ConflictFile)
    (cf : ConflictFile)
    (hpw : List.Pairwise (fun a c =>
      ConflictFile.canonical_name env a ≠ ConflictFile.canonical_name env c) scan)
    (hmem : cf ∈ scan) :
    (scan.filter (fun c =>
      ConflictFile.canonical_name env c = ConflictFile.canonical_name env cf)).getLast?
      = some cf := by
  induction scan with
  | nil => cases hmem
  | cons x rest ih =>
    rw [List.pairwise_cons] at hpw
    rcases List.mem_cons.mp hmem with hx | hx
    · subst hx
      rw [List.filter_cons, if_pos (by simp)]
      have hnil : rest.filter (fun c =>
          ConflictFile.canonical_name env c = ConflictFile.canonical_name env cf) = [] := by
        rw [List.filter_eq_nil_iff]
        intro y hy
        simp only [decide_eq_true_eq]
        intro hcanon
        exact hpw.1 y hy hcanon.symm
      rw [hnil]
      rfl
    · have hne : ConflictFile.canonical_name env x ≠
          ConflictFile.canonical_name env cf := hpw.1 cf hx
      rw [List.filter_cons, if_neg (by simp [hne])]
      exact ih hpw.2 hx

/-- **C8, counterexample.**  Two distinct scanned records whose directories
resolve (via `os.path.realpath`) to the same real directory share one
canonical path; `Cli.conflict_map` does *not* fail with any
`DuplicateCanonicalPath` error — it is a plain dict assignment that silently
overwrites, leaving only the later record in the index. -/
theorem claim_C8_counterexample :
    cfX ≠ cfY ∧
    ConflictFile.canonical_name envDup cfX = ConflictFile.canonical_name envDup cfY ∧
    Cli.conflict_map envDup [cfX, cfY] = [(pDup, cfY)] ∧
    alookup pDup (Cli.conflict_map envDup [cfX, cfY]) = some cfY := by
  exact ⟨by decide, rfl, rfl, rfl⟩

/-- **C8, amended.**  `Cli.conflict_map` never fails: it maps every canonical
path to the *last* scanned record with that path (duplicates are silently
overwritten by dict assignment); in particular, when all canonical paths are
distinct, the index maps each canonical path to its record. -/
theorem claim_C8_index_semantics (env : Env) (scan : List ConflictFile) :
    (∀ pth, alookup pth (Cli.conflict_map env scan) =
      (scan.filter (fun cf => ConflictFile.canonical_name env cf = pth)).getLast?) ∧
    (List.Pairwise (fun a c =>
        ConflictFile.canonical_name env a ≠ ConflictFile.canonical_name env c) scan →
      ∀ cf ∈ scan,
        alookup (ConflictFile.canonical_name env cf) (Cli.conflict_map env scan) =
          some cf) := by
  have hgen : ∀ pth, alookup pth (Cli.conflict_map env scan) =
      (scan.filter (fun cf => ConflictFile.canonical_name env cf = pth)).getLast? := by
    intro pth
    unfold Cli.conflict_map
    rw [alookup_conflict_map_general env scan [] pth]
    simp [alookup, Option.or_none]
  refine ⟨hgen, ?_⟩
  intro hpw cf hmem
  rw [hgen (ConflictFile.canonical_name env cf)]
  exact filter_last_pairwise env scan cf hpw hmem

/-- **C8, witness.**  The index law applied to a concrete duplicate-free scan
of two records. -/
theorem claim_C8_index_semantics_witness :
    alookup (ConflictFile.canonical_name envAbsent cfA)
      (Cli.conflict_map envAbsent [cfA, cfB]) = some cfA :=
  (claim_C8_index_semantics envAbsent [cfA, cfB]).2 (by decide) cfA (by decide)

/-- **C9.**  With `commit = false` neither `delete` nor `backup` touches the
filesystem: the world is returned unchanged (no removal, no rename, no
directory creation) and the only effect is the printed report line. -/
theorem claim_C9_dry_run (args : Args) (env : Env) (cf : ConflictFile)
    (w : World) (h : args.commit = false) :
    ConflictFile.delete args env cf w =
      .ok (w, [String.toList "delete: " ++ cf.name]) ∧
    ConflictFile.backup args env cf w =
      .ok (w, [String.toList "backup: " ++ cf.name]) := by
  unfold ConflictFile.delete ConflictFile.backup
  rw [h]
  exact ⟨rfl, rfl⟩

/-- **C9, witness.**  The dry-run law applied to a concrete world holding one
file. -/
theorem claim_C9_dry_run_witness :
    ConflictFile.delete argsDry envAbsent cfA worldA =
      .ok (worldA, [String.toList "delete: " ++ cfA.name]) ∧
    ConflictFile.backup argsDry envAbsent cfA worldA =
      .ok (worldA, [String.toList "backup: " ++ cfA.name]) :=
  claim_C9_dry_run argsDry envAbsent cfA worldA rfl

/-- **C10.**  The memoized `Timestamp.NOW`: whatever the first call to
`Timestamp.now()` returned, every later call returns that same timestamp and
leaves the memo unchanged — the wall clock passed later is ignored — so every
`file_age` in the batch is measured against the same instant. -/
theorem claim_C10_memoized_clock (st : Option Timestamp) (clock t : Timestamp)
    (st' : Option Timestamp) (h : Timestamp.now st clock = (t, st')) :
    (∀ clock2, Timestamp.now st' clock2 = (t, st')) ∧
    (∀ clock2 cf, Timestamp.file_age st' clock2 cf =
      (ConflictFile.age_in_seconds t cf, st')) := by
  cases st with
  | none =>
    simp only [Timestamp.now] at h
    injection h with h1 h2
    subst h1
    subst h2
    exact ⟨fun clock2 => rfl, fun clock2 cf => rfl⟩
  | some t0 =>
    simp only [Timestamp.now] at h
    injection h with h1 h2
    subst h1
    subst h2
    exact ⟨fun clock2 => rfl, fun clock2 cf => rfl⟩

/-- **C10, witness.**  After a first call memoized `nowJan3`, a later call
with a different wall-clock reading still returns `nowJan3`, and `file_age`
measures against `nowJan3`. -/
theorem claim_C10_memoized_clock_witness :
    Timestamp.now (some nowJan3) ⟨2024, 6, 1, 0, 0, 0⟩ = (nowJan3, some nowJan3) ∧
    Timestamp.file_age (some nowJan3) ⟨2024, 6, 1, 0, 0, 0⟩ cfA =
      (ConflictFile.age_in_seconds nowJan3 cfA, some nowJan3) :=
  ⟨(claim_C10_memoized_clock none nowJan3 nowJan3 (some nowJan3) rfl).1 _,
   (claim_C10_memoized_clock none nowJan3 nowJan3 (some nowJan3) rfl).2 _ cfA⟩
